import Mathlib

/- Verification of the Dell PowerConnect 55xx switch driver
   (haas/ext/switches/dell.py): a shallow embedding of the command driver,
   the prompt deriver, the interface-status parser and the VLAN extractor,
   together with proofs of the specified properties.

   Modelling conventions:
   * The console channel is represented by the ordered list of text chunks
     the switch emits; each chunk is one terminal line (ending in a single
     newline) or the pagination banner.  The pexpect pattern race is
     modelled at this line granularity, anchored at the start of a chunk,
     with ties between patterns resolved by the source priority order.
   * Python dicts are association lists with overwrite-in-place update and
     first-occurrence lookup.
   * Fallible operations return `Except DellErr`. -/

namespace DellSwitch

/-! ### Python string primitives used by the driver -/

/-- Characters stripped by Python `str.strip()` with no argument. -/
def isPyWs (c : Char) : Bool :=
  c = ' ' || c = '\t' || c = '\n' || c = '\r' || c = Char.ofNat 11 || c = Char.ofNat 12

/-- `str.strip()`: drop whitespace from both ends of a character list. -/
def stripL (l : List Char) : List Char :=
  ((l.dropWhile isPyWs).reverse.dropWhile isPyWs).reverse

/-- `str.strip()` on a string. -/
def pyStrip (s : String) : String := ⟨stripL s.data⟩

/-- The group captured by `re.match(r'(\d+)', s)`: the leading run of
decimal digits, provided it is nonempty. -/
def leadDigitsL (l : List Char) : Option (List Char) :=
  match l.takeWhile Char.isDigit with
  | [] => none
  | ds => some ds

/-- `int(s)` on a nonempty string of decimal digits. -/
def digitsToNatL (l : List Char) : Nat :=
  l.foldl (fun a c => 10 * a + (c.toNat - 48)) 0

/-- Python `s.split(sep)` for a single-character separator: split on every
occurrence, keeping empty pieces. -/
def splitOnChar (sep : Char) : List Char → List (List Char)
  | [] => [[]]
  | c :: rest =>
    if c = sep then [] :: splitOnChar sep rest
    else
      match splitOnChar sep rest with
      | [] => [[c]]
      | h :: t => (c :: h) :: t

/-! ### The parsed interface key/value map (a Python dict of strings) -/

abbrev KVMap := List (String × String)

/-- Dict lookup: value of the first entry with the given key. -/
def lookupMap : KVMap → String → Option String
  | [], _ => none
  | e :: rest, k => if e.1 = k then some e.2 else lookupMap rest k

/-- Dict store `m[k] = v`: overwrite the entry in place if the key is
present, otherwise add it. -/
def updateMap : KVMap → String → String → KVMap
  | [], k, v => [(k, v)]
  | e :: rest, k, v => if e.1 = k then (k, v) :: rest else e :: updateMap rest k v

/-! ### VLAN extractor (`get_port_networks`) -/

/-- Errors surfaced by the driver.  `keyError` is the Python `KeyError`
raised by dict indexing in `get_port_networks` and `_int_config`.
`consoleProtocolError` is modelled from the spec (section 7): an expect
wait that exceeded its bound or matched no registered pattern; the console
layer that raises it (`haas.ext.switches._console`) is not part of the
given source. -/
inductive DellErr where
  | consoleProtocolError : DellErr
  | keyError : DellErr
deriving DecidableEq, Repr

/-- One sub-token of the "Trunking VLANs Enabled" field, exactly as in the
source loop body: strip it, keep the leading digit run `d` if any, and emit
`('vlan/%s' % d, int(d))`. -/
def trunkToken (t : List Char) : Option (String × Nat) :=
  match leadDigitsL (stripL t) with
  | some d => some ("vlan/" ++ (⟨d⟩ : String), digitsToNatL d)
  | none => none

/-- The trunked entries parsed from the "Trunking VLANs Enabled" value:
split on commas into range tokens, split each range token on `-` into
sub-tokens, parse each sub-token, silently skipping digitless tokens. -/
def parseTrunkEntries (s : String) : List (String × Nat) :=
  (splitOnChar ',' s.data).flatMap
    (fun r => (splitOnChar '-' r).filterMap trunkToken)

/-- The native VLAN id parsed from the "Trunking Native Mode VLAN" value:
strip, then take the leading decimal-digit run as an integer, if any. -/
def parseNative (s : String) : Option Nat :=
  (leadDigitsL (stripL s.data)).map digitsToNatL

/-- Per-port body of `get_port_networks`: index the parsed map at the
native field and then at the trunked field (a missing key raises
`KeyError`), parse both, and append the native entry last when present. -/
def portVlans (m : KVMap) : Except DellErr (List (String × Nat)) :=
  match lookupMap m "Trunking Native Mode VLAN" with
  | none => .error .keyError
  | some nvRaw =>
    match lookupMap m "Trunking VLANs Enabled" with
    | none => .error .keyError
    | some tvRaw =>
      match parseNative nvRaw with
      | some n => .ok (parseTrunkEntries tvRaw ++ [("vlan/native", n)])
      | none => .ok (parseTrunkEntries tvRaw)

/-- `get_port_networks`, acting on the per-port parsed maps: build the
port-to-VLAN-list mapping, propagating the first failure. -/
def get_port_networks :
    List (String × KVMap) → Except DellErr (List (String × List (String × Nat)))
  | [] => .ok []
  | (p, m) :: rest =>
    match portVlans m with
    | .error e => .error e
    | .ok vs =>
      match get_port_networks rest with
      | .error e => .error e
      | .ok r => .ok ((p, vs) :: r)

/-! ### Interface-status parser (`_int_config`) -/

/-- The pagination banner, source `alternatives[0]` (a `re.escape`d
literal, so it matches exactly this text). -/
def moreBanner : String := "More: <space>,  Quit: q or CTRL+Z, One line: <return> "

/-- The end-of-output marker, source `alternatives[1]`
(`Classification rules:\r\n`). -/
def classRulesLine : String := "Classification rules:\r\n"

/-- The character class `[^ \t\r\n]` opening the Key:Value pattern. -/
def isKVWs (c : Char) : Bool := c = ' ' || c = '\t' || c = '\r' || c = '\n'

/-- A single terminal line chunk: it ends in its only newline. -/
def isLine (s : String) : Bool :=
  (s.data.getLast? == some '\n') && !(s.data.dropLast.contains '\n')

/-- Source `alternatives[2]`, `[^ \t\r\n][^:]*:[^\n]*\n`, anchored at the
start of a line chunk: the first character is outside the class and a
colon occurs after it. -/
def isKVLine (s : String) : Bool :=
  isLine s &&
    (match s.data with
     | [] => false
     | c :: rest => !isKVWs c && rest.contains ':')

/-- Source `alternatives[3]`, `' [^\n]*\n'`: a line opening with a space. -/
def isContLine (s : String) : Bool :=
  isLine s && s.data.head? == some ' '

/-- Python `after.split(':', 1)`: the text before the first colon and
everything after it (the trailing newline included). -/
def splitColon (s : String) : String × String :=
  (⟨s.data.takeWhile (· != ':')⟩, ⟨(s.data.dropWhile (· != ':')).tail⟩)

/-- The four-way outcome of one round of the expect race. -/
inductive Ev where
  | more : Ev
  | endMark : Ev
  | kv : String → String → Ev
  | cont : String → Ev
deriving DecidableEq, Repr

/-- Classify one chunk of switch output by the four loop patterns, in the
source priority order (ties, such as the end marker also shaped like a
Key:Value line, go to the earlier pattern). -/
def classify (s : String) : Option Ev :=
  if s = moreBanner then some Ev.more
  else if s = classRulesLine then some Ev.endMark
  else if isKVLine s then some (Ev.kv (splitColon s).1 (splitColon s).2)
  else if isContLine s then some (Ev.cont s)
  else none

/-- The key of a Key:Value event, if that is what the event is. -/
def evKvKey : Option Ev → Option String
  | some (Ev.kv k _) => some k
  | _ => none

/-- Effect of the pagination branch: one space character is sent and the
loop result is otherwise passed through. -/
def pageStep (r : Except DellErr (List String × KVMap)) :
    Except DellErr (List String × KVMap) :=
  match r with
  | .ok (ss, m) => .ok (" " :: ss, m)
  | .error e => .error e

/-- Modelled from the spec: the bounded expect wait of the console layer
(`_console`, not in the given source) fails with `ConsoleProtocolError`
when the remaining channel text matches no registered pattern.  Otherwise
this is the `while True` loop of `_int_config`: `k` is the current key,
`m` the accumulated dict; chunks matching no pattern are skipped (they
fall into pexpect's `before` text), the banner pages forward with a single
space, the end marker stops, a Key:Value chunk is split on its first colon
and stored under its key which becomes current, and a continuation chunk
is appended verbatim to the value under the current key.  Returns the
sent characters and the final dict. -/
def intLoop : List String → String → KVMap → Except DellErr (List String × KVMap)
  | [], _, _ => .error .consoleProtocolError
  | l :: rest, k, m =>
    match classify l with
    | none => intLoop rest k m
    | some Ev.more => pageStep (intLoop rest k m)
    | some Ev.endMark => .ok ([], m)
    | some (Ev.kv k2 v2) => intLoop rest k2 (updateMap m k2 v2)
    | some (Ev.cont t) =>
      match lookupMap m k with
      | some v => intLoop rest k (updateMap m k (v ++ t))
      | none => .error .keyError

/-- `_int_config`: first wait for a Key:Value chunk alone (skipping any
preamble), seed the dict with it, then run the loop.  An exhausted
transcript with no such chunk is a failed expect wait. -/
def int_config : List String → Except DellErr (List String × KVMap)
  | [] => .error .consoleProtocolError
  | l :: rest =>
    if isKVLine l then
      intLoop rest (splitColon l).1 [((splitColon l).1, (splitColon l).2)]
    else int_config rest

/-! ### Command driver (`_sendline` traces) -/

/-- The observable state of the console for the command driver: the
ordered list of lines sent with `_sendline`.  VLAN ids are strings, as in
the source, which concatenates them into command text. -/
structure Console where
  sends : List String

/-- `_sendline`: append one line to the channel. -/
def sendline (c : Console) (l : String) : Console := ⟨c.sends ++ [l]⟩

/-- `enable_vlan`: `sw mode trunk`, then `sw trunk allowed vlan add <id>`. -/
def enable_vlan (c : Console) (vlan_id : String) : Console :=
  sendline (sendline c "sw mode trunk") ("sw trunk allowed vlan add " ++ vlan_id)

/-- `disable_vlan`: `sw trunk allowed vlan remove <id>`. -/
def disable_vlan (c : Console) (vlan_id : String) : Console :=
  sendline c ("sw trunk allowed vlan remove " ++ vlan_id)

/-- `set_native(old, new)`: disable the old native VLAN when one is given,
set the new native VLAN, then enable it as trunked. -/
def set_native (c : Console) (old : Option String) (new : String) : Console :=
  let c1 := match old with
    | some o => disable_vlan c o
    | none => c
  enable_vlan (sendline c1 ("sw trunk native vlan " ++ new)) new

/-! ### Prompt deriver (`connect`) and a regex model for `re.escape` -/

/-- Python 2 `re` alphanumerics: the characters `re.escape` leaves alone. -/
def isAlnumU (c : Char) : Bool :=
  (97 ≤ c.toNat && c.toNat ≤ 122) || (65 ≤ c.toNat && c.toNat ≤ 90) ||
  (48 ≤ c.toNat && c.toNat ≤ 57) || c = '_'

/-- Python 2 `re.escape` on one character: alphanumerics kept, NUL turned
into `\000`, everything else backslash-prefixed. -/
def pyEscapeChar (c : Char) : List Char :=
  if isAlnumU c then [c]
  else if c = Char.ofNat 0 then ['\\', '0', '0', '0']
  else ['\\', c]

/-- Python 2 `re.escape`. -/
def pyEscape (s : String) : String := ⟨s.data.flatMap pyEscapeChar⟩

/-- Python `s[:-1]`. -/
def pyDropLast (s : String) : String := ⟨s.data.dropLast⟩

/-- `main_prompt = re.escape(cmd_prompt)`. -/
def main_prompt (cmd : String) : String := pyEscape cmd

/-- `config_prompt = re.escape(cmd_prompt[:-1] + '(config)#')`. -/
def config_prompt (cmd : String) : String :=
  pyEscape (pyDropLast cmd ++ "(config)#")

/-- `if_prompt = re.escape(cmd_prompt[:-1] + '(config-if)#')`. -/
def if_prompt (cmd : String) : String :=
  pyEscape (pyDropLast cmd ++ "(config-if)#")

/-- Regex tokens: a literal character, the `.` wildcard, and `*`
repetition of the preceding token. -/
inductive Tok where
  | lit : Char → Tok
  | dot : Tok
  | star : Tok → Tok
deriving DecidableEq, Repr

/-- Compile a pattern string into tokens: `\c` is the literal `c` (with
the three-digit form `\000` for NUL), an unescaped `.` is the wildcard,
an unescaped `*` repeats the previous token, all else is literal. -/
def compileAux : List Char → List Tok → Option (List Tok)
  | [], acc => some acc.reverse
  | c :: rest, acc =>
    if c = '\\' then
      match rest with
      | [] => none
      | d :: rest2 =>
        if d = '0' then
          match rest2 with
          | e :: f :: rest3 =>
            if e = '0' && f = '0' then compileAux rest3 (Tok.lit (Char.ofNat 0) :: acc)
            else none
          | _ => none
        else compileAux rest2 (Tok.lit d :: acc)
    else if c = '*' then
      match acc with
      | [] => none
      | Tok.star _ :: _ => none
      | t :: acc2 => compileAux rest (Tok.star t :: acc2)
    else if c = '.' then compileAux rest (Tok.dot :: acc)
    else compileAux rest (Tok.lit c :: acc)

/-- Whether a non-repeating token accepts one character. -/
def tokMatchChar : Tok → Char → Bool
  | Tok.lit c, d => d == c
  | Tok.dot, _ => true
  | Tok.star _, _ => false

/-- Run a starred token `t*`: either hand the remaining text to the
continuation now, or consume one `t`-matching character and repeat. -/
def starRun (t : Tok) (k : List Char → Bool) : List Char → Bool
  | [] => k []
  | c :: s => k (c :: s) || (tokMatchChar t c && starRun t k s)

/-- Whether a token sequence matches a whole character list. -/
def reMatch : List Tok → List Char → Bool
  | [], s => s.isEmpty
  | Tok.star t :: ts, s => starRun t (reMatch ts) s
  | _ :: _, [] => false
  | t :: ts, c :: s => tokMatchChar t c && reMatch ts s

/-- Whether a compiled pattern string matches a whole subject string. -/
def reMatchStr (pat s : String) : Bool :=
  match compileAux pat.data [] with
  | some ts => reMatch ts s.data
  | none => false


/-! ## Helper lemmas -/

lemma data_append (a b : String) : (a ++ b).data = a.data ++ b.data := by
  cases a; cases b; rfl

lemma isAlnumU_not_meta {c : Char} (h : isAlnumU c = true) :
    c ≠ '\\' ∧ c ≠ '*' ∧ c ≠ '.' := by
  refine ⟨?_, ?_, ?_⟩ <;> rintro rfl <;> exact absurd h (by decide)

/-- Compiling the escape of a text yields exactly its literal tokens. -/
lemma compileAux_escape (cs : List Char) (acc : List Tok) :
    compileAux (cs.flatMap pyEscapeChar) acc = some (acc.reverse ++ cs.map Tok.lit) := by
  induction cs generalizing acc with
  | nil => simp [compileAux]
  | cons c cs ih =>
    rw [List.flatMap_cons]
    by_cases h1 : isAlnumU c
    · obtain ⟨h2, h3, h4⟩ := isAlnumU_not_meta h1
      rw [pyEscapeChar, if_pos h1, List.singleton_append, compileAux.eq_def]
      simp [h2, h3, h4, ih]
    · by_cases h0 : c = Char.ofNat 0
      · subst h0
        rw [pyEscapeChar, if_neg h1, if_pos rfl]
        rw [show ((['\\', '0', '0', '0'] : List Char) ++ cs.flatMap pyEscapeChar)
              = '\\' :: '0' :: '0' :: '0' :: cs.flatMap pyEscapeChar from rfl]
        rw [compileAux.eq_def]
        simp [ih]
      · have hz : c ≠ '0' := by rintro rfl; exact absurd h1 (by decide)
        rw [pyEscapeChar, if_neg h1, if_neg h0]
        rw [show ((['\\', c] : List Char) ++ cs.flatMap pyEscapeChar)
              = '\\' :: c :: cs.flatMap pyEscapeChar from rfl]
        rw [compileAux.eq_def]
        simp [hz, ih]

/-- A sequence of literal tokens matches exactly the literal text. -/
lemma reMatch_lits (l s : List Char) : reMatch (l.map Tok.lit) s = decide (s = l) := by
  induction l generalizing s with
  | nil => cases s <;> simp [reMatch]
  | cons c l ih =>
    cases s with
    | nil => simp [reMatch]
    | cons d s =>
      by_cases h : d = c
      · subst h; simp [reMatch, tokMatchChar, ih]
      · simp [reMatch, tokMatchChar, ih, h]

/-- `re.escape(t)`, used as a pattern, matches a string iff it is `t`:
escaping makes every character, metacharacters included, literal. -/
lemma escape_exact (t s : String) : reMatchStr (pyEscape t) s = true ↔ s = t := by
  have h : compileAux (pyEscape t).data [] = some (t.data.map Tok.lit) := by
    have h2 := compileAux_escape t.data []
    simpa using h2
  unfold reMatchStr
  rw [h]
  simp [reMatch_lits, String.ext_iff]

/-! ## Claim theorems -/

/-- C5: for a raw banner prompt ending in `#`, the three derived patterns
literally match the raw prompt, the prompt with the trailing `#` replaced
by `(config)#`, and with it replaced by `(config-if)#`, respectively, and
nothing else: regex metacharacters in the banner are matched literally. -/
theorem c5_prompt_literal_match (base s : String) :
    (reMatchStr (main_prompt (base ++ "#")) s = true ↔ s = base ++ "#")
    ∧ (reMatchStr (config_prompt (base ++ "#")) s = true ↔ s = base ++ "(config)#")
    ∧ (reMatchStr (if_prompt (base ++ "#")) s = true ↔ s = base ++ "(config-if)#") := by
  have hdata : (pyDropLast (base ++ "#")).data = base.data := by
    show ((base ++ "#").data).dropLast = base.data
    rw [data_append]
    exact List.dropLast_concat
  have hdrop : pyDropLast (base ++ "#") = base := String.ext_iff.mpr hdata
  refine ⟨escape_exact _ s, ?_, ?_⟩
  · show reMatchStr (pyEscape (pyDropLast (base ++ "#") ++ "(config)#")) s = true ↔ _
    rw [hdrop]
    exact escape_exact _ s
  · show reMatchStr (pyEscape (pyDropLast (base ++ "#") ++ "(config-if)#")) s = true ↔ _
    rw [hdrop]
    exact escape_exact _ s

/-- C6: `set_native (some "5") "10"` sends, in order, the disable sequence
for 5, the set-native line for 10, then the enable sequence for 10; with
no old native VLAN the disable step is skipped and the remaining sends
occur in the same order. -/
theorem c6_set_native_order :
    (∀ c : Console, (set_native c (some "5") "10").sends
        = c.sends ++ ["sw trunk allowed vlan remove 5",
                      "sw trunk native vlan 10",
                      "sw mode trunk",
                      "sw trunk allowed vlan add 10"])
    ∧ (∀ (c : Console) (nv : String), (set_native c none nv).sends
        = c.sends ++ ["sw trunk native vlan " ++ nv,
                      "sw mode trunk",
                      "sw trunk allowed vlan add " ++ nv]) := by
  constructor
  · intro c
    simp [set_native, enable_vlan, disable_vlan, sendline, List.append_assoc]
  · intro c nv
    simp [set_native, enable_vlan, disable_vlan, sendline, List.append_assoc]

/-- C8: calling `enable_vlan "10"` twice issues the identical two-line
command sequence twice, with no error and no deduplication. -/
theorem c8_enable_vlan_twice (c : Console) :
    (enable_vlan (enable_vlan c "10") "10").sends
      = c.sends ++ ["sw mode trunk", "sw trunk allowed vlan add 10"]
          ++ ["sw mode trunk", "sw trunk allowed vlan add 10"] := by
  simp [enable_vlan, sendline, List.append_assoc]


/-! ## VLAN-extractor lemmas -/

lemma leadDigitsL_eq {l d : List Char} (h : leadDigitsL l = some d) :
    d = l.takeWhile Char.isDigit ∧ d ≠ [] := by
  unfold leadDigitsL at h
  cases htw : l.takeWhile Char.isDigit with
  | nil => rw [htw] at h; exact absurd h (by simp)
  | cons x xs =>
    rw [htw] at h
    injection h with h
    subst h
    exact ⟨rfl, by simp⟩

/-- Shape of an emitted trunk entry: `vlan/` followed by the nonempty
leading digit run, paired with its integer value. -/
lemma trunkToken_shape {t : List Char} {e : String × Nat} (h : trunkToken t = some e) :
    ∃ d : List Char, d ≠ [] ∧ (∀ c ∈ d, c.isDigit)
      ∧ e.1 = "vlan/" ++ (⟨d⟩ : String) ∧ e.2 = digitsToNatL d := by
  unfold trunkToken at h
  cases hd : leadDigitsL (stripL t) with
  | none => rw [hd] at h; exact absurd h (by simp)
  | some d =>
    rw [hd] at h
    injection h with h
    obtain ⟨hdw, hdne⟩ := leadDigitsL_eq hd
    refine ⟨d, hdne, ?_, ?_, ?_⟩
    · intro c hc
      rw [hdw] at hc
      exact List.mem_takeWhile_imp hc
    · rw [← h]
    · rw [← h]

lemma parseTrunk_entry {s : String} {e : String × Nat} (h : e ∈ parseTrunkEntries s) :
    ∃ d : List Char, d ≠ [] ∧ (∀ c ∈ d, c.isDigit)
      ∧ e.1 = "vlan/" ++ (⟨d⟩ : String) ∧ e.2 = digitsToNatL d := by
  unfold parseTrunkEntries at h
  obtain ⟨r, _hr, hmem⟩ := List.mem_flatMap.mp h
  obtain ⟨t, _ht, htok⟩ := List.mem_filterMap.mp hmem
  exact trunkToken_shape htok

/-- No trunked entry is named `vlan/native`: its name continues with a
digit, never with the letter `n`. -/
lemma parseTrunk_name_ne_native {s : String} {e : String × Nat}
    (h : e ∈ parseTrunkEntries s) : e.1 ≠ "vlan/native" := by
  obtain ⟨d, _hne, hdig, hname, _⟩ := parseTrunk_entry h
  intro hcon
  rw [hname] at hcon
  have hd : d = "native".data := by
    have h2 := congrArg String.data hcon
    rw [data_append] at h2
    have h3 : ("vlan/native" : String).data
        = ("vlan/" : String).data ++ ("native" : String).data := by decide
    rw [h3] at h2
    exact List.append_cancel_left h2
  have hn : ('n' : Char) ∈ d := by rw [hd]; decide
  exact absurd (hdig 'n' hn) (by decide)

/-- Unfolding of `portVlans` when both fields are present. -/
lemma portVlans_eq {m : KVMap} {nv tv : String}
    (h1 : lookupMap m "Trunking Native Mode VLAN" = some nv)
    (h2 : lookupMap m "Trunking VLANs Enabled" = some tv) :
    portVlans m = .ok (parseTrunkEntries tv ++
      (match parseNative nv with
       | some n => [("vlan/native", n)]
       | none => [])) := by
  unfold portVlans
  rw [h1, h2]
  cases hn : parseNative nv <;> simp [hn]

/-- A missing field makes `portVlans` fail with `KeyError`. -/
lemma portVlans_missing {m : KVMap}
    (h : lookupMap m "Trunking Native Mode VLAN" = none ∨
         lookupMap m "Trunking VLANs Enabled" = none) :
    portVlans m = .error .keyError := by
  unfold portVlans
  rcases h with h | h
  · rw [h]
  · cases hn : lookupMap m "Trunking Native Mode VLAN" with
    | none => rfl
    | some nv => rw [h]

/-- `portVlans` either succeeds or fails with `KeyError`. -/
lemma portVlans_cases (m : KVMap) :
    portVlans m = .error .keyError ∨ ∃ l, portVlans m = .ok l := by
  cases hn : lookupMap m "Trunking Native Mode VLAN" with
  | none => exact Or.inl (portVlans_missing (Or.inl hn))
  | some nv =>
    cases ht : lookupMap m "Trunking VLANs Enabled" with
    | none => exact Or.inl (portVlans_missing (Or.inr ht))
    | some tv => exact Or.inr ⟨_, portVlans_eq hn ht⟩

/-- C1, counterexample: on the field value `"1,5-7, 20"` the extractor
emits only the endpoints of the range token `5-7`; the entry
`("vlan/6",6)` claimed by the specification is not produced. -/
theorem c1_counterexample :
    get_port_networks [("p", [("Trunking Native Mode VLAN", "Disabled"),
                              ("Trunking VLANs Enabled", "1,5-7, 20")])]
        = .ok [("p", [("vlan/1",1),("vlan/5",5),("vlan/7",7),("vlan/20",20)])]
    ∧ ([("vlan/1",(1:Nat)),("vlan/5",5),("vlan/7",7),("vlan/20",20)]
        ≠ [("vlan/1",1),("vlan/5",5),("vlan/6",6),("vlan/7",7),("vlan/20",20)]) :=
  ⟨rfl, by decide⟩

/-- C1, amended: for a port whose "Trunking VLANs Enabled" field is
`"1,5-7, 20"`, the non-native entries are exactly
`[("vlan/1",1),("vlan/5",5),("vlan/7",7),("vlan/20",20)]`, in that order:
each range token contributes only its `-`-separated endpoints. -/
theorem c1_trunk_range_endpoints (m : KVMap) (l : List (String × Nat))
    (ht : lookupMap m "Trunking VLANs Enabled" = some "1,5-7, 20")
    (hl : portVlans m = .ok l) :
    l.filter (fun e => e.1 != "vlan/native")
      = [("vlan/1",1),("vlan/5",5),("vlan/7",7),("vlan/20",20)] := by
  cases hn : lookupMap m "Trunking Native Mode VLAN" with
  | none => rw [portVlans_missing (Or.inl hn)] at hl; exact absurd hl (by simp)
  | some nv =>
    rw [portVlans_eq hn ht] at hl
    injection hl with hl
    rw [← hl, List.filter_append]
    have h1 : (parseTrunkEntries "1,5-7, 20").filter (fun e => e.1 != "vlan/native")
        = [("vlan/1",1),("vlan/5",5),("vlan/7",7),("vlan/20",20)] := by decide
    rw [h1]
    cases hp : parseNative nv <;> simp

/-- C1, witness for the amended theorem at a concrete port map. -/
theorem c1_trunk_range_endpoints_witness :
    ([("vlan/1",(1:Nat)),("vlan/5",5),("vlan/7",7),("vlan/20",20)]
        : List (String × Nat)).filter (fun e => e.1 != "vlan/native")
      = [("vlan/1",1),("vlan/5",5),("vlan/7",7),("vlan/20",20)] :=
  c1_trunk_range_endpoints
    [("Trunking Native Mode VLAN", "Disabled"), ("Trunking VLANs Enabled", "1,5-7, 20")]
    [("vlan/1",1),("vlan/5",5),("vlan/7",7),("vlan/20",20)] rfl rfl

/-- C3: the native VLAN is derived from the "Trunking Native Mode VLAN"
field by stripping whitespace and taking the leading decimal-digit run;
`" 100 (Inactive)"` yields 100, and a digitless value such as
`"Disabled"` yields no native entry. -/
theorem c3_native_derivation :
    (∀ (m : KVMap) (nv tv : String),
        lookupMap m "Trunking Native Mode VLAN" = some nv →
        lookupMap m "Trunking VLANs Enabled" = some tv →
        portVlans m = .ok (parseTrunkEntries tv ++
          (match parseNative nv with
           | some n => [("vlan/native", n)]
           | none => [])))
    ∧ (∀ s : String, parseNative s = (leadDigitsL (stripL s.data)).map digitsToNatL)
    ∧ parseNative " 100 (Inactive)" = some 100
    ∧ parseNative "Disabled" = none :=
  ⟨fun _ _ _ h1 h2 => portVlans_eq h1 h2, fun _ => rfl, by decide, by decide⟩

/-- C3, witness at a concrete port map. -/
theorem c3_native_derivation_witness :
    portVlans [("Trunking Native Mode VLAN", " 100 (Inactive)"),
               ("Trunking VLANs Enabled", "7")]
      = .ok [("vlan/7", 7), ("vlan/native", 100)] := by
  have h := c3_native_derivation.1
      [("Trunking Native Mode VLAN", " 100 (Inactive)"), ("Trunking VLANs Enabled", "7")]
      " 100 (Inactive)" "7" rfl rfl
  exact h.trans rfl

/-- C4: a port's VLAN list has at most one `vlan/native` entry, and when a
native id is found the list is exactly the trunked entries followed by the
native entry last, with no deduplication. -/
theorem c4_native_last (m : KVMap) (l : List (String × Nat))
    (hl : portVlans m = .ok l) :
    l.countP (fun e => e.1 == "vlan/native") ≤ 1
    ∧ (∀ nv tv n, lookupMap m "Trunking Native Mode VLAN" = some nv →
        lookupMap m "Trunking VLANs Enabled" = some tv →
        parseNative nv = some n →
        l = parseTrunkEntries tv ++ [("vlan/native", n)]) := by
  constructor
  · cases hn : lookupMap m "Trunking Native Mode VLAN" with
    | none => rw [portVlans_missing (Or.inl hn)] at hl; exact absurd hl (by simp)
    | some nv =>
      cases ht : lookupMap m "Trunking VLANs Enabled" with
      | none => rw [portVlans_missing (Or.inr ht)] at hl; exact absurd hl (by simp)
      | some tv =>
        rw [portVlans_eq hn ht] at hl
        injection hl with hl
        rw [← hl, List.countP_append]
        have htr : (parseTrunkEntries tv).countP (fun e => e.1 == "vlan/native") = 0 :=
          List.countP_eq_zero.mpr (fun a ha => by
            simpa using parseTrunk_name_ne_native ha)
        rw [htr]
        cases hp : parseNative nv <;> simp
  · intro nv tv n h1 h2 h3
    rw [portVlans_eq h1 h2, h3] at hl
    injection hl with hl
    exact hl.symm

/-- C4, witness: a port whose native id 5 also appears among the trunked
entries keeps both, the native entry last. -/
theorem c4_native_last_witness :
    (([("vlan/5", 5), ("vlan/native", 5)] : List (String × Nat)).countP
        (fun e => e.1 == "vlan/native") ≤ 1)
    ∧ ([("vlan/5", (5:Nat)), ("vlan/native", 5)]
        = parseTrunkEntries "5" ++ [("vlan/native", 5)]) := by
  have h := c4_native_last
      [("Trunking Native Mode VLAN", "5"), ("Trunking VLANs Enabled", "5")]
      [("vlan/5", 5), ("vlan/native", 5)] rfl
  exact ⟨h.1, h.2 "5" "5" 5 rfl rfl rfl⟩

/-- C9: `get_port_networks` indexes every port's parsed map at both VLAN
fields; if any port's map lacks either field the whole call fails with a
lookup error. -/
theorem c9_missing_field (cfgs : List (String × KVMap)) (p : String) (m : KVMap)
    (hp : (p, m) ∈ cfgs)
    (hmiss : lookupMap m "Trunking Native Mode VLAN" = none ∨
             lookupMap m "Trunking VLANs Enabled" = none) :
    get_port_networks cfgs = .error .keyError := by
  induction cfgs with
  | nil => cases hp
  | cons hd rest ih =>
    obtain ⟨q, mq⟩ := hd
    rcases List.mem_cons.mp hp with heq | hmem
    · obtain ⟨rfl, rfl⟩ := Prod.mk.inj heq.symm
      unfold get_port_networks
      rw [portVlans_missing hmiss]
    · unfold get_port_networks
      rcases portVlans_cases mq with herr | ⟨lv, hok⟩
      · rw [herr]
      · rw [hok, ih hmem]

/-- C9, witness: a port map lacking "Trunking VLANs Enabled". -/
theorem c9_missing_field_witness :
    get_port_networks [("p1", [("Trunking Native Mode VLAN", "1")])]
      = .error .keyError :=
  c9_missing_field _ "p1" [("Trunking Native Mode VLAN", "1")]
    (List.Mem.head _) (Or.inr rfl)

/-- C10, counterexample: the trunk token `007` produces the entry
`("vlan/007", 7)`, whose name is not `vlan/` followed by the decimal
rendering of 7. -/
theorem c10_counterexample :
    portVlans [("Trunking Native Mode VLAN", "Disabled"),
               ("Trunking VLANs Enabled", "007")]
        = .ok [("vlan/007", 7)]
    ∧ ("vlan/007" : String) ≠ "vlan/" ++ toString (7 : Nat) :=
  ⟨rfl, by decide⟩

/-- C10, amended: every non-native entry's name is `vlan/` followed by
the nonempty leading decimal-digit run parsed from the switch text, and
its id is that run's (non-negative) integer value; name and id therefore
agree up to leading zeros. -/
theorem c10_name_digit_run (m : KVMap) (l : List (String × Nat)) (e : String × Nat)
    (hl : portVlans m = .ok l) (he : e ∈ l) (hnn : e.1 ≠ "vlan/native") :
    ∃ d : List Char, d ≠ [] ∧ (∀ c ∈ d, c.isDigit)
      ∧ e.1 = "vlan/" ++ (⟨d⟩ : String) ∧ e.2 = digitsToNatL d := by
  cases hn : lookupMap m "Trunking Native Mode VLAN" with
  | none => rw [portVlans_missing (Or.inl hn)] at hl; exact absurd hl (by simp)
  | some nv =>
    cases ht : lookupMap m "Trunking VLANs Enabled" with
    | none => rw [portVlans_missing (Or.inr ht)] at hl; exact absurd hl (by simp)
    | some tv =>
      rw [portVlans_eq hn ht] at hl
      injection hl with hl
      rw [← hl] at he
      rcases List.mem_append.mp he with h | h
      · exact parseTrunk_entry h
      · exfalso
        cases hp : parseNative nv with
        | some n =>
          rw [hp] at h
          simp at h
          exact absurd (show e.1 = "vlan/native" by rw [h]) hnn
        | none =>
          rw [hp] at h
          simp at h

/-- C10, witness for the amended theorem at the token `007`. -/
theorem c10_name_digit_run_witness :
    ∃ d : List Char, d ≠ [] ∧ (∀ c ∈ d, c.isDigit)
      ∧ ("vlan/007" : String) = "vlan/" ++ (⟨d⟩ : String)
      ∧ (7 : Nat) = digitsToNatL d :=
  c10_name_digit_run
    [("Trunking Native Mode VLAN", "Disabled"), ("Trunking VLANs Enabled", "007")]
    [("vlan/007", 7)] ("vlan/007", 7) rfl (List.Mem.head _) (by decide)


/-! ## Interface-status parser lemmas -/

/-- Storing under a key makes it the value looked up: overwrite semantics. -/
lemma lookup_update_self (m : KVMap) (k v : String) :
    lookupMap (updateMap m k v) k = some v := by
  induction m with
  | nil => simp [updateMap, lookupMap]
  | cons e rest ih =>
    by_cases h : e.1 = k
    · simp [updateMap, h, lookupMap]
    · simp [updateMap, h, lookupMap, ih]

/-- Storing under one key leaves lookups of other keys unchanged. -/
lemma lookup_update_ne (m : KVMap) {k2 key : String} (v : String) (h : k2 ≠ key) :
    lookupMap (updateMap m k2 v) key = lookupMap m key := by
  induction m with
  | nil => simp [updateMap, lookupMap, h]
  | cons e rest ih =>
    by_cases he : e.1 = k2
    · simp [updateMap, he, lookupMap, h]
    · simp [updateMap, he, lookupMap, ih]

lemma classify_more : classify moreBanner = some Ev.more := by decide

lemma classify_end : classify classRulesLine = some Ev.endMark := by decide

/-- A chunk classified as Key:Value is split on its first colon. -/
lemma classify_kv_split {l k2 v2 : String}
    (h : classify l = some (Ev.kv k2 v2)) : (k2, v2) = splitColon l := by
  unfold classify at h
  split_ifs at h
  any_goals exact Ev.noConfusion (Option.some.inj h)
  injection h with h
  injection h with ha hb
  rw [← ha, ← hb]

/-- Continuation attribution: once a value is recorded under a key, later
loop rounds that never store under that key leave it intact up to the
final map. -/
lemma intLoop_attrib :
    ∀ (ts : List String) (k key v : String) (m : KVMap) (ss : List String)
      (m2 : KVMap), key ≠ k → lookupMap m key = some v →
      (∀ l ∈ ts, evKvKey (classify l) ≠ some key) →
      intLoop ts k m = .ok (ss, m2) → lookupMap m2 key = some v := by
  intro ts
  induction ts with
  | nil =>
    intro k key v m ss m2 _ _ _ hrun
    exact absurd hrun (by simp [intLoop])
  | cons l rest ih =>
    intro k key v m ss m2 hne hv hts hrun
    cases hcl : classify l with
    | none =>
      rw [intLoop.eq_def] at hrun
      simp [hcl] at hrun
      exact ih k key v m ss m2 hne hv
        (fun x hx => hts x (List.mem_cons_of_mem _ hx)) hrun
    | some ev =>
      cases ev with
      | more =>
        rw [intLoop.eq_def] at hrun
        simp [hcl] at hrun
        cases hr : intLoop rest k m with
        | error e => rw [hr] at hrun; simp [pageStep] at hrun
        | ok pr =>
          obtain ⟨ss', m'⟩ := pr
          rw [hr] at hrun
          simp [pageStep] at hrun
          have hlook := ih k key v m ss' m' hne hv
            (fun x hx => hts x (List.mem_cons_of_mem _ hx)) hr
          exact hrun.2 ▸ hlook
      | endMark =>
        rw [intLoop.eq_def] at hrun
        simp [hcl] at hrun
        exact hrun.2 ▸ hv
      | kv k2 v2 =>
        rw [intLoop.eq_def] at hrun
        simp [hcl] at hrun
        have hk2 : k2 ≠ key := by
          intro hcon
          apply hts l (List.mem_cons_self _ _)
          rw [hcl]
          simp [evKvKey, hcon]
        refine ih k2 key v (updateMap m k2 v2) ss m2 (Ne.symm hk2) ?_
          (fun x hx => hts x (List.mem_cons_of_mem _ hx)) hrun
        rw [lookup_update_ne m v2 hk2]
        exact hv
      | cont t =>
        rw [intLoop.eq_def] at hrun
        simp [hcl] at hrun
        cases hmk : lookupMap m k with
        | none => rw [hmk] at hrun; simp at hrun
        | some vk =>
          rw [hmk] at hrun
          have hkne : k ≠ key := fun hc => hne hc.symm
          refine ih k key v (updateMap m k (vk ++ t)) ss m2 hne ?_
            (fun x hx => hts x (List.mem_cons_of_mem _ hx)) hrun
          rw [lookup_update_ne m (vk ++ t) hkne]
          exact hv

/-- C2: in the four-pattern loop, the pagination banner sends exactly one
space and the loop continues; a `Classification rules:` line terminates
the loop; a Key:Value line is split on its first colon, stored with
overwrite, and becomes the current key; a continuation line's raw text is
appended to the current key's value; and a recorded value survives all
later rounds that store under other keys. -/
theorem c2_loop_behavior :
    (∀ (rest : List String) (k : String) (m : KVMap),
        intLoop (moreBanner :: rest) k m = pageStep (intLoop rest k m))
    ∧ (∀ (rest : List String) (k : String) (m : KVMap),
        intLoop (classRulesLine :: rest) k m = .ok ([], m))
    ∧ (∀ (l : String) (rest : List String) (k : String) (m : KVMap) (k2 v2 : String),
        classify l = some (Ev.kv k2 v2) →
        (k2, v2) = splitColon l
        ∧ intLoop (l :: rest) k m = intLoop rest k2 (updateMap m k2 v2))
    ∧ (∀ (m : KVMap) (k v : String), lookupMap (updateMap m k v) k = some v)
    ∧ (∀ (l : String) (rest : List String) (k : String) (m : KVMap) (v : String),
        classify l = some (Ev.cont l) → lookupMap m k = some v →
        intLoop (l :: rest) k m = intLoop rest k (updateMap m k (v ++ l)))
    ∧ (∀ (ts : List String) (k key v : String) (m : KVMap) (ss : List String)
        (m2 : KVMap), key ≠ k → lookupMap m key = some v →
        (∀ l ∈ ts, evKvKey (classify l) ≠ some key) →
        intLoop ts k m = .ok (ss, m2) → lookupMap m2 key = some v) := by
  refine ⟨?_, ?_, ?_, lookup_update_self, ?_, intLoop_attrib⟩
  · intro rest k m
    rw [intLoop.eq_def]
    simp [classify_more]
  · intro rest k m
    rw [intLoop.eq_def]
    simp [classify_end]
  · intro l rest k m k2 v2 h
    refine ⟨classify_kv_split h, ?_⟩
    rw [intLoop.eq_def]
    simp [h]
  · intro l rest k m v h hv
    rw [intLoop.eq_def]
    simp [h, hv]

/-- C2, witness: concrete loop rounds for each pattern, and a value kept
across a later key. -/
theorem c2_loop_behavior_witness :
    intLoop [moreBanner, classRulesLine] "Port" [("Port", " Up\r\n")]
        = .ok ([" "], [("Port", " Up\r\n")])
    ∧ intLoop ["Speed: 1000\r\n", classRulesLine] "Port" [("Port", " Up\r\n")]
        = .ok ([], [("Port", " Up\r\n"), ("Speed", " 1000\r\n")])
    ∧ intLoop [" half\r\n", classRulesLine] "Port" [("Port", " Up\r\n")]
        = .ok ([], [("Port", " Up\r\n half\r\n")])
    ∧ lookupMap (updateMap [("Port", " Up\r\n")] "Port" " Down\r\n") "Port"
        = some " Down\r\n"
    ∧ lookupMap [("Port", " Up\r\n"), ("Speed", " 1000\r\n")] "Port"
        = some " Up\r\n" := by
  obtain ⟨h1, h2, h3, h4, h5, h6⟩ := c2_loop_behavior
  refine ⟨?_, ?_, ?_, h4 _ _ _, ?_⟩
  · rw [h1, h2]; rfl
  · have hk := h3 "Speed: 1000\r\n" [classRulesLine] "Port" [("Port", " Up\r\n")]
        "Speed" " 1000\r\n" (by decide)
    rw [hk.2, h2]; rfl
  · have hc := h5 " half\r\n" [classRulesLine] "Port" [("Port", " Up\r\n")]
        " Up\r\n" (by decide) (by decide)
    rw [hc, h2]; rfl
  · exact h6 ["Speed: 1000\r\n", classRulesLine] "Dummy" "Port" " Up\r\n"
      [("Port", " Up\r\n")] [] [("Port", " Up\r\n"), ("Speed", " 1000\r\n")]
      (by decide) (by decide) (by decide) rfl

/-- C7: a transcript in which no chunk matches any registered pattern
(first the lone Key:Value pattern, then the four loop patterns) makes the
query fail with `ConsoleProtocolError` rather than return a partial
result or a different error. -/
theorem c7_unmatched_timeout :
    (∀ ts : List String, (∀ l ∈ ts, isKVLine l = false) →
        int_config ts = .error .consoleProtocolError)
    ∧ (∀ (ts : List String) (k : String) (m : KVMap),
        (∀ l ∈ ts, classify l = none) →
        intLoop ts k m = .error .consoleProtocolError) := by
  constructor
  · intro ts
    induction ts with
    | nil => intro _; rfl
    | cons l rest ih =>
      intro h
      rw [int_config.eq_def]
      simp [h l (List.mem_cons_self _ _)]
      exact ih (fun x hx => h x (List.mem_cons_of_mem _ hx))
  · intro ts k m
    induction ts generalizing k m with
    | nil => intro _; rfl
    | cons l rest ih =>
      intro h
      rw [intLoop.eq_def]
      simp [h l (List.mem_cons_self _ _)]
      exact ih _ _ (fun x hx => h x (List.mem_cons_of_mem _ hx))

/-- C7, witness: a chunk matching no pattern at all. -/
theorem c7_unmatched_timeout_witness :
    int_config [":junk\r\n"] = .error .consoleProtocolError
    ∧ intLoop [":junk\r\n"] "K" [("K", "V")] = .error .consoleProtocolError := by
  have h := c7_unmatched_timeout
  exact ⟨h.1 [":junk\r\n"] (by decide), h.2 [":junk\r\n"] "K" [("K", "V")] (by decide)⟩


/-- C5, witness: a banner containing the metacharacter `.` matches itself
and does not match the wildcard variant. -/
theorem c5_prompt_literal_match_witness :
    reMatchStr (main_prompt ("sw.tch1" ++ "#")) "sw.tch1#" = true
    ∧ ¬ reMatchStr (main_prompt ("sw.tch1" ++ "#")) "swXtch1#" = true := by
  have h := c5_prompt_literal_match "sw.tch1" "sw.tch1#"
  have h2 := c5_prompt_literal_match "sw.tch1" "swXtch1#"
  exact ⟨h.1.mpr (by decide), fun hm => absurd (h2.1.mp hm) (by decide)⟩

/-- C6, witness: the two send sequences from an empty trace. -/
theorem c6_set_native_order_witness :
    (set_native ⟨[]⟩ (some "5") "10").sends
      = [] ++ ["sw trunk allowed vlan remove 5", "sw trunk native vlan 10",
               "sw mode trunk", "sw trunk allowed vlan add 10"]
    ∧ (set_native ⟨[]⟩ none "20").sends
      = [] ++ ["sw trunk native vlan " ++ "20", "sw mode trunk",
               "sw trunk allowed vlan add " ++ "20"] :=
  ⟨c6_set_native_order.1 ⟨[]⟩, c6_set_native_order.2 ⟨[]⟩ "20"⟩

/-- C8, witness: the doubled sequence from an empty trace. -/
theorem c8_enable_vlan_twice_witness :
    (enable_vlan (enable_vlan ⟨[]⟩ "10") "10").sends
      = [] ++ ["sw mode trunk", "sw trunk allowed vlan add 10"]
          ++ ["sw mode trunk", "sw trunk allowed vlan add 10"] :=
  c8_enable_vlan_twice ⟨[]⟩

end DellSwitch
